import Mathlib

/-!
Verification of the Go binding `bindings/go/unicorn/unicorn.go` of the
unicorn CPU-emulator repository, together with a spec-modelled account of
the native engine operations the binding calls into (the engine itself is
written in C and is specified in spec.md sections 4-7).

Conventions of the embedding:
* Go `error` values become `Option UcError`: `none` is Go's `nil`,
  `some e` a non-nil `*UcError`.
* C `uc_err` codes become `Nat` constants with the values of `uc_err`
  in `unicorn.h`.
* Byte buffers become `List Nat`; guest memory is a total function
  `Nat → Nat` updated pointwise.
* Stateful native calls are explicit state passing on `NativeEngine`.
-/

namespace Unicorn

/-! ## Error codes (values of the C enumeration uc_err) -/

def ERR_OK : Nat := 0
def ERR_NOMEM : Nat := 1
def ERR_ARCH : Nat := 2
def ERR_HANDLE : Nat := 3
def ERR_MODE : Nat := 4
def ERR_VERSION : Nat := 5
def ERR_READ_UNMAPPED : Nat := 6
def ERR_WRITE_UNMAPPED : Nat := 7
def ERR_FETCH_UNMAPPED : Nat := 8
def ERR_HOOK : Nat := 9
def ERR_INSN_INVALID : Nat := 10
def ERR_MAP : Nat := 11
def ERR_WRITE_PROT : Nat := 12
def ERR_READ_PROT : Nat := 13
def ERR_FETCH_PROT : Nat := 14
def ERR_ARG : Nat := 15

/-! ## Protection bits (values of UC_PROT_* in unicorn.h) -/

def PROT_NONE : Nat := 0
def PROT_READ : Nat := 1
def PROT_WRITE : Nat := 2
def PROT_EXEC : Nat := 4
def PROT_ALL : Nat := 7

/-- Go `type UcError C.uc_err`: a wrapped engine error code. -/
structure UcError where
  code : Nat
deriving DecidableEq, Repr

/-- Go `errReturn`: wrap a native result code, `nil` exactly on `ERR_OK`. -/
def errReturn (err : Nat) : Option UcError :=
  if err ≠ ERR_OK then some ⟨err⟩ else none

/-! ## Spec-modelled native engine state -/

/-- Modelled from the spec: the C struct `uc_mem_region` (spec section 3,
"Memory Region"): `{begin, end (inclusive last byte), perms}`.  The C
engine source is not under src/, only its Go caller is.  `end` is a Lean
keyword, so the field is named `end_`. -/
structure NativeRegion where
  begin_ : Nat
  end_ : Nat
  perms : Nat
deriving DecidableEq, Repr

/-- Modelled from the spec: the state owned by a native `uc_engine` handle
(spec sections 2-4): the address-space manager's region table and byte
contents, and the execution controller's program counter, running flag and
pending stop request.  The code hook registry (spec section 4.3) is
abstracted to the one capability the claims exercise: for each address,
whether a registered code hook fires there and requests a stop. -/
structure NativeEngine where
  regions : List NativeRegion
  mem : Nat → Nat
  pc : Nat
  running : Bool
  stopRequested : Bool
  hookStopsAt : Nat → Bool

/-- Membership of an address in a region (inclusive bounds). -/
def NativeRegion.contains (r : NativeRegion) (a : Nat) : Bool :=
  decide (r.begin_ ≤ a) && decide (a ≤ r.end_)

/-- Modelled from the spec: an address is mapped with (at least) the given
permission bits when some region of the table contains it and grants them
(spec section 4.1). -/
def NativeEngine.mappedWith (s : NativeEngine) (a prot : Nat) : Bool :=
  s.regions.any (fun r => r.contains a && decide (r.perms &&& prot = prot))

/-- Every byte of `[addr, addr+len)` is mapped with the permission bits. -/
def NativeEngine.rangeMapped (s : NativeEngine) (addr len prot : Nat) : Bool :=
  (List.range len).all (fun i => s.mappedWith (addr + i) prot)

/-- Pointwise store of a byte list into memory starting at `addr`. -/
def storeBytes (m : Nat → Nat) (addr : Nat) : List Nat → (Nat → Nat)
  | [] => m
  | b :: bs => storeBytes (fun a => if a = addr then b else m a) (addr + 1) bs

/-- Load `len` bytes of memory starting at `addr`. -/
def loadBytes (m : Nat → Nat) (addr len : Nat) : List Nat :=
  (List.range len).map (fun i => m (addr + i))

/-- Modelled from the spec: the native `uc_mem_write` (spec section 4.1,
`write(addr, bytes)`): byte-exact; fails with `WriteUnmapped` if any
touched byte is outside a mapped region and with `WriteProt` if mapped but
not writable; on failure the engine is unchanged. -/
def uc_mem_write (s : NativeEngine) (addr : Nat) (data : List Nat) :
    Nat × NativeEngine :=
  if s.rangeMapped addr data.length PROT_WRITE then
    (ERR_OK, { s with mem := storeBytes s.mem addr data })
  else if s.rangeMapped addr data.length PROT_NONE then
    (ERR_WRITE_PROT, s)
  else
    (ERR_WRITE_UNMAPPED, s)

/-- Modelled from the spec: the native `uc_mem_read` (spec section 4.1,
`read(addr, len)`): byte-exact; fails with `ReadUnmapped` if any touched
byte is outside a mapped region and with `ReadProt` if mapped but not
readable.  On success it fills the caller's buffer with the loaded bytes;
on failure the buffer is left untouched. -/
def uc_mem_read (s : NativeEngine) (addr len : Nat) : Nat × Option (List Nat) :=
  if s.rangeMapped addr len PROT_READ then
    (ERR_OK, some (loadBytes s.mem addr len))
  else if s.rangeMapped addr len PROT_NONE then
    (ERR_READ_PROT, none)
  else
    (ERR_READ_UNMAPPED, none)

/-! ## Go binding: memory operations (unicorn.go lines 134-159) -/

/-- Go `MemRegion`: the binding's owned copy of one region descriptor. -/
structure MemRegion where
  Begin : Nat
  End : Nat
  Prot : Nat
deriving DecidableEq, Repr

/-- Go `uc.MemWrite`: zero-length writes return `nil` without calling the
native engine; otherwise the native `uc_mem_write` result is wrapped by
`errReturn`. -/
def MemWrite (u : NativeEngine) (addr : Nat) (data : List Nat) :
    Option UcError × NativeEngine :=
  if data.length = 0 then
    (none, u)
  else
    let r := uc_mem_write u addr data
    (errReturn r.1, r.2)

/-- Go `uc.MemReadInto`: zero-length reads return `nil` without calling
the native engine; otherwise `uc_mem_read` fills the destination buffer on
success and leaves it untouched on failure.  Returns the Go error together
with the destination buffer's final contents. -/
def MemReadInto (u : NativeEngine) (dst : List Nat) (addr : Nat) :
    Option UcError × List Nat :=
  if dst.length = 0 then
    (none, dst)
  else
    match uc_mem_read u addr dst.length with
    | (e, some bytes) => (errReturn e, bytes)
    | (e, none) => (errReturn e, dst)

/-- Go `uc.MemRead`: allocates `dst := make([]byte, size)` (all zero) and
returns it together with the `MemReadInto` error. -/
def MemRead (u : NativeEngine) (addr size : Nat) : List Nat × Option UcError :=
  let r := MemReadInto u (List.replicate size 0) addr
  (r.2, r.1)

/-- Modelled from the spec: the native `uc_mem_map` (spec section 4.1,
`map(addr, size, perms)`): fails with `InvalidArgument` if the size is
zero or the range is unaligned to the 4 KiB mapping granularity, with
`MapOverlap` if it intersects an existing region; on success the region is
added zero-initialized. -/
def uc_mem_map (s : NativeEngine) (addr size prot : Nat) : Nat × NativeEngine :=
  if size = 0 ∨ addr % 4096 ≠ 0 ∨ size % 4096 ≠ 0 then
    (ERR_ARG, s)
  else if s.regions.any (fun r => decide (r.begin_ ≤ addr + size - 1) &&
      decide (addr ≤ r.end_)) then
    (ERR_MAP, s)
  else
    (ERR_OK,
      { s with
        regions := s.regions ++ [⟨addr, addr + size - 1, prot⟩],
        mem := fun a => if addr ≤ a ∧ a < addr + size then 0 else s.mem a })

/-- Go `uc.MemMapProt`: wraps the native `uc_mem_map` with the caller's
permission bits. -/
def MemMapProt (u : NativeEngine) (addr size prot : Nat) :
    Option UcError × NativeEngine :=
  let r := uc_mem_map u addr size prot
  (errReturn r.1, r.2)

/-- Go `uc.MemMap`: maps with all permissions, delegating to
`MemMapProt` with `PROT_ALL`. -/
def MemMap (u : NativeEngine) (addr size : Nat) : Option UcError × NativeEngine :=
  MemMapProt u addr size PROT_ALL

/-- Modelled from the spec: the native `uc_mem_regions` returns a snapshot
of the current region descriptors together with their count; the engine
maintains the table ordered by ascending base address (spec section 4.1,
`regions()`). -/
def uc_mem_regions (s : NativeEngine) : Nat × List NativeRegion :=
  (ERR_OK, s.regions)

/-- Go `uc.MemRegions`: on native failure returns `(nil, err)`; on success
allocates a fresh Go slice and copies every native descriptor into an
owned `MemRegion` value (`ret[i] = &MemRegion{...}` in the loop over the
cast native array). -/
def MemRegions (u : NativeEngine) : Option (List MemRegion) × Option UcError :=
  let r := uc_mem_regions u
  if r.1 ≠ ERR_OK then
    (none, errReturn r.1)
  else
    (some (r.2.map (fun v => ⟨v.begin_, v.end_, v.perms⟩)), none)

/-! ## Go binding: lifecycle (unicorn.go lines 56-88) -/

/-- Go `type uc struct { handle *C.uc_engine; final sync.Once }`.  The
`sync.Once` is modelled by the flag `finalDone` recording whether its body
has been consumed; the claims exercised here are sequential. -/
structure UCState where
  handle : Option NativeEngine
  finalDone : Bool

/-- Modelled from the spec: the native `uc_close` releases everything the
handle owns and reports `Ok` (spec section 5: resource cleanup occurs
exactly once on close). -/
def uc_close (_h : NativeEngine) : Nat :=
  ERR_OK

/-- Go `uc.Close`: the `sync.Once` runs its body at most once; the body
releases the native handle only when it is still non-nil and then clears
it.  The result triple is the returned Go error, the engine state after
the call, and the number of native `uc_close` invocations the call
performed. -/
def Close (u : UCState) : Option UcError × UCState × Nat :=
  if u.finalDone then
    (none, u, 0)
  else
    match u.handle with
    | some h => (errReturn (uc_close h), ⟨none, true⟩, 1)
    | none => (none, ⟨none, true⟩, 0)

/-- The binding's compiled version expectation `UC_API_MAJOR` from
`unicorn.h`. -/
def UC_API_MAJOR : Nat := 1

/-- The binding's compiled version expectation `UC_API_MINOR` from
`unicorn.h`. -/
def UC_API_MINOR : Nat := 0

/-- The native library as `NewUnicorn` sees it: `uc_version` reports this
runtime version pair, and `uc_open` maps `(arch, mode)` to a result code
and (when the code is `Ok`) a fresh engine. -/
structure NativeLib where
  versionMajor : Nat
  versionMinor : Nat
  openResult : Nat → Nat → Nat × NativeEngine

/-- Go `NewUnicorn`: queries `uc_version`, rejects any component mismatch
with `ERR_VERSION` before touching `uc_open`, then opens the engine and
wraps a non-`Ok` open result.  The second component counts the `uc_open`
invocations the call performed. -/
def NewUnicorn (lib : NativeLib) (arch mode : Nat) :
    (Option UCState × Option UcError) × Nat :=
  if lib.versionMajor ≠ UC_API_MAJOR ∨ lib.versionMinor ≠ UC_API_MINOR then
    ((none, some ⟨ERR_VERSION⟩), 0)
  else
    let r := lib.openResult arch mode
    if r.1 ≠ ERR_OK then
      ((none, some ⟨r.1⟩), 1)
    else
      ((some ⟨some r.2, false⟩, none), 1)

/-! ## Spec-modelled execution controller (spec section 4.4) -/

/-- Modelled from the spec: the terminal reason of a run (spec section 4.4,
terminations (a)-(e)). -/
inductive StopReason where
  | untilReached
  | countLimit
  | timeLimit
  | hookStop
  | fault (code : Nat)
deriving DecidableEq, Repr

/-- The error code a terminal reason surfaces: success for normal
completion, the count/time limits and a caller-requested stop, the fault's
own code otherwise (spec section 4.4: returns success for (a)-(c) and for
a stop not due to an underlying fault). -/
def StopReason.code : StopReason → Nat
  | .untilReached => ERR_OK
  | .countLimit => ERR_OK
  | .timeLimit => ERR_OK
  | .hookStop => ERR_OK
  | .fault e => e

/-- Modelled from the spec: the native `uc_emu_stop` records a stop
request that takes effect at the next instruction boundary (spec section
4.4, `stop()`). -/
def uc_emu_stop (h : NativeEngine) : Nat × NativeEngine :=
  (ERR_OK, { h with stopRequested := true })

/-- Go `uc.Stop`: wraps the native `uc_emu_stop` result. -/
def Stop (u : NativeEngine) : Option UcError × NativeEngine :=
  let r := uc_emu_stop u
  (errReturn r.1, r.2)

/-- Modelled from the spec: the run loop of the execution controller (spec
section 4.4).  Each iteration, at an instruction boundary: terminate with
success when the program counter reaches `until_`; fire the code hooks (a
hook may issue `uc_emu_stop`); honour a pending stop request as a
successful, caller-requested termination; fault on an unmapped or
non-executable fetch; otherwise execute one instruction (the decoder is an
external per-architecture concern, so an instruction is one program
counter step) and terminate when the instruction count reaches `count` or
the elapsed time reaches `timeout` — both checked only at instruction
boundaries and both disabled when zero.  Wall-clock time is modelled at
the spec's own granularity: one unit per executed instruction.  `fuel`
bounds the modelled iterations; `none` means the run outlived the fuel
(a diverging guest), never an engine outcome. -/
def runLoop (until_ count timeout : Nat) :
    NativeEngine → Nat → Nat → Option (StopReason × NativeEngine)
  | _, _, 0 => none
  | s, executed, fuel + 1 =>
    if s.pc = until_ then
      some (.untilReached, { s with running := false })
    else
      let s1 := if s.hookStopsAt s.pc then (uc_emu_stop s).2 else s
      if s1.stopRequested then
        some (.hookStop, { s1 with running := false, stopRequested := false })
      else if s1.mappedWith s1.pc PROT_EXEC then
        let s2 := { s1 with pc := s1.pc + 1 }
        if count ≠ 0 ∧ executed + 1 = count then
          some (.countLimit, { s2 with running := false })
        else if timeout ≠ 0 ∧ timeout ≤ executed + 1 then
          some (.timeLimit, { s2 with running := false })
        else
          runLoop until_ count timeout s2 (executed + 1) fuel
      else if s1.mappedWith s1.pc PROT_NONE then
        some (.fault ERR_FETCH_PROT, { s1 with running := false })
      else
        some (.fault ERR_FETCH_UNMAPPED, { s1 with running := false })

/-- Fuel sufficient for every terminating run: the program counter only
grows, so a run from `begin` that reaches `until_` takes at most
`until_ - begin` steps, and the count and time limits cut any run after at
most `count` or `timeout` instructions. -/
def startFuel (begin until_ count timeout : Nat) : Nat :=
  (until_ - begin) + count + timeout + 1

/-- Modelled from the spec: the native `uc_emu_start` (spec section 4.4,
`start`): transitions to Running with the program counter at `begin`, no
stop request pending, and drives the run loop; the returned code is the
terminal reason's code. -/
def uc_emu_start (h : NativeEngine) (begin until_ timeout count : Nat) :
    Option (StopReason × NativeEngine) :=
  runLoop until_ count timeout
    { h with pc := begin, running := true, stopRequested := false }
    0 (startFuel begin until_ count timeout)

/-- Go `type UcOptions struct { Timeout, Count uint64 }`. -/
structure UcOptions where
  Timeout : Nat
  Count : Nat
deriving DecidableEq, Repr

/-- Go `uc.StartWithOptions`: calls the native `uc_emu_start` with the
caller's timeout and count and wraps the result code with `errReturn`.
`none` propagates the model's divergence marker. -/
def StartWithOptions (u : NativeEngine) (begin until_ : Nat)
    (options : UcOptions) : Option (Option UcError × NativeEngine) :=
  (uc_emu_start u begin until_ options.Timeout options.Count).map
    (fun r => (errReturn r.1.code, r.2))

/-- Go `uc.Start`: delegates to `StartWithOptions` with the zero-valued
`&UcOptions{}`. -/
def Start (u : NativeEngine) (begin until_ : Nat) :
    Option (Option UcError × NativeEngine) :=
  StartWithOptions u begin until_ ⟨0, 0⟩

/-! ## Sample states for the concrete witnesses -/

/-- An engine with nothing mapped and no hooks. -/
def engine0 : NativeEngine :=
  { regions := [], mem := fun _ => 0, pc := 0, running := false,
    stopRequested := false, hookStopsAt := fun _ => false }

/-- An engine with an all-permission page at 0x1000 and a read-write page
at 0x3000. -/
def engine1 : NativeEngine :=
  { engine0 with regions := [⟨4096, 8191, 7⟩, ⟨12288, 16383, 3⟩] }

/-- An engine whose code hook requests a stop at address 0. -/
def engine2 : NativeEngine :=
  { engine0 with hookStopsAt := fun a => a == 0 }

/-! ## Claims -/

/-- Claim C5: every fallible operation reports its outcome as a code of
the fixed enumeration: the wrapper `errReturn e` is Go `nil` exactly when
the native code `e` is `ERR_OK`, and otherwise is a `UcError` carrying
exactly `e`. -/
theorem errReturn_code_exact (e : Nat) :
    (errReturn e = none ↔ e = ERR_OK) ∧
    (e ≠ ERR_OK → errReturn e = some ⟨e⟩) := by
  refine ⟨⟨fun h => ?_, fun h => by simp [errReturn, h]⟩,
    fun h => by simp [errReturn, h]⟩
  by_contra hne
  simp [errReturn, hne] at h

/-- Witness for C5 at the concrete codes 7 (an error) and 0 (`Ok`). -/
theorem errReturn_code_exact_witness :
    errReturn 7 = some ⟨7⟩ ∧ errReturn 0 = none :=
  ⟨(errReturn_code_exact 7).2 (by decide),
   (errReturn_code_exact 0).1.mpr rfl⟩

/-- Claim C1: `NewUnicorn` compares the runtime version pair against the
compiled expectation first: on any component mismatch it returns the
`ERR_VERSION` error with no engine and `uc_open` is never invoked; when
both components match exactly, `uc_open` is invoked (exactly once). -/
theorem NewUnicorn_version_gate (lib : NativeLib) (arch mode : Nat) :
    (lib.versionMajor ≠ UC_API_MAJOR ∨ lib.versionMinor ≠ UC_API_MINOR →
      NewUnicorn lib arch mode = ((none, some ⟨ERR_VERSION⟩), 0)) ∧
    (lib.versionMajor = UC_API_MAJOR ∧ lib.versionMinor = UC_API_MINOR →
      (NewUnicorn lib arch mode).2 = 1) := by
  constructor
  · intro h
    simp only [NewUnicorn, if_pos h]
  · rintro ⟨h1, h2⟩
    simp only [NewUnicorn, h1, h2]
    simp only [ne_eq, not_true_eq_false, or_self, if_false]
    split <;> rfl

/-- Witness for C1: a library reporting version (9, 9) is rejected with
`ERR_VERSION` and zero `uc_open` calls; one reporting the expected pair
reaches `uc_open` exactly once. -/
theorem NewUnicorn_version_gate_witness :
    NewUnicorn ⟨9, 9, fun _ _ => (ERR_OK, engine0)⟩ 0 0 =
      ((none, some ⟨ERR_VERSION⟩), 0) ∧
    (NewUnicorn ⟨UC_API_MAJOR, UC_API_MINOR, fun _ _ => (ERR_OK, engine0)⟩ 0 0).2 = 1 :=
  ⟨(NewUnicorn_version_gate ⟨9, 9, fun _ _ => (ERR_OK, engine0)⟩ 0 0).1
      (by simp [UC_API_MAJOR]),
   (NewUnicorn_version_gate ⟨UC_API_MAJOR, UC_API_MINOR, fun _ _ => (ERR_OK, engine0)⟩ 0 0).2
      ⟨rfl, rfl⟩⟩

/-- Claim C2: `Close` is idempotent: on a not-yet-closed engine holding a
native handle, the first `Close` releases the handle exactly once, and the
state it leaves behind is a fixed point on which every further `Close`
performs no release and returns `nil`. -/
theorem Close_idempotent (u : UCState) (h : NativeEngine)
    (hd : u.finalDone = false) (hh : u.handle = some h) :
    (Close u).2.2 = 1 ∧
    Close (Close u).2.1 = (none, (Close u).2.1, 0) := by
  simp [Close, hd, hh, uc_close, errReturn]

/-- Witness for C2 on a freshly opened engine state. -/
theorem Close_idempotent_witness :
    (Close ⟨some engine0, false⟩).2.2 = 1 ∧
    Close (Close ⟨some engine0, false⟩).2.1 =
      (none, (Close ⟨some engine0, false⟩).2.1, 0) :=
  Close_idempotent ⟨some engine0, false⟩ engine0 rfl rfl

/-- Claim C3: a zero-length `MemWrite`, a zero-length `MemReadInto` and a
zero-size `MemRead` return `nil` without touching the engine, for every
engine state and every address (mapped or not). -/
theorem zero_length_noop (u : NativeEngine) (addr : Nat) :
    MemWrite u addr [] = (none, u) ∧
    MemReadInto u [] addr = (none, []) ∧
    MemRead u addr 0 = ([], none) :=
  ⟨rfl, rfl, rfl⟩

/-- Claim C9: `MemMap` maps with all permissions: it is exactly
`MemMapProt` at `PROT_ALL`, and `PROT_ALL` is `READ ||| WRITE ||| EXEC`. -/
theorem MemMap_is_prot_all (u : NativeEngine) (addr size : Nat) :
    MemMap u addr size = MemMapProt u addr size PROT_ALL ∧
    PROT_ALL = PROT_READ ||| PROT_WRITE ||| PROT_EXEC :=
  ⟨rfl, rfl⟩

/-- Claim C10: `MemRead` always hands back the freshly allocated buffer of
length exactly `size` — on failure too, in which case the buffer is still
the zero-valued allocation (never Go `nil`, which has length 0 only). -/
theorem MemRead_buffer_shape (u : NativeEngine) (addr size : Nat) :
    (MemRead u addr size).1.length = size ∧
    ((MemRead u addr size).2 ≠ none →
      (MemRead u addr size).1 = List.replicate size 0) := by
  unfold MemRead MemReadInto
  by_cases hz : size = 0
  · subst hz
    simp
  · simp only [List.length_replicate, hz, if_false]
    by_cases hR : u.rangeMapped addr size PROT_READ = true
    · simp [uc_mem_read, hR, errReturn, loadBytes, ERR_OK]
    · by_cases hN : u.rangeMapped addr size PROT_NONE = true
      · simp [uc_mem_read, hR, hN, errReturn, ERR_READ_PROT, ERR_OK]
      · simp [uc_mem_read, hR, hN, errReturn, ERR_READ_UNMAPPED, ERR_OK]

/-- Witness for C10: reading 3 bytes from an engine with nothing mapped
fails, yet yields the 3-byte zero buffer. -/
theorem MemRead_buffer_shape_witness :
    (MemRead engine0 0 3).1.length = 3 ∧
    (MemRead engine0 0 3).1 = List.replicate 3 0 :=
  ⟨(MemRead_buffer_shape engine0 0 3).1,
   (MemRead_buffer_shape engine0 0 3).2 (by decide)⟩

/-- Claim C6: on a region table ordered by ascending base (the invariant
the engine maintains), `MemRegions` succeeds with the list of owned
per-descriptor copies, in the same ascending-base order. -/
theorem MemRegions_sorted_snapshot (u : NativeEngine)
    (hs : u.regions.Pairwise (fun a b => a.begin_ < b.begin_)) :
    MemRegions u =
      (some (u.regions.map (fun v => ⟨v.begin_, v.end_, v.perms⟩)), none) ∧
    ((MemRegions u).1.getD []).Pairwise (fun a b => a.Begin < b.Begin) := by
  have h1 : MemRegions u =
      (some (u.regions.map (fun v => ⟨v.begin_, v.end_, v.perms⟩)), none) := rfl
  refine ⟨h1, ?_⟩
  rw [h1]
  simpa [List.pairwise_map] using hs

/-- Witness for C6 on a two-region table in ascending order. -/
theorem MemRegions_sorted_snapshot_witness :
    MemRegions engine1 =
      (some (engine1.regions.map (fun v => ⟨v.begin_, v.end_, v.perms⟩)), none) ∧
    ((MemRegions engine1).1.getD []).Pairwise (fun a b => a.Begin < b.Begin) :=
  MemRegions_sorted_snapshot engine1 (by decide)

/-! ## Helper lemmas for the read-after-write identity -/

/-- A store starting above `x` leaves the byte at `x` alone. -/
theorem storeBytes_lt (bs : List Nat) :
    ∀ (m : Nat → Nat) (a x : Nat), x < a → storeBytes m a bs x = m x := by
  induction bs with
  | nil => intro m a x _; rfl
  | cons b bs ih =>
    intro m a x hx
    show storeBytes (fun y => if y = a then b else m y) (a + 1) bs x = m x
    rw [ih _ (a + 1) x (Nat.lt_succ_of_lt hx)]
    simp [Nat.ne_of_lt hx]

/-- Loading `n + 1` bytes peels off the byte at the base address. -/
theorem loadBytes_succ (m : Nat → Nat) (a n : Nat) :
    loadBytes m a (n + 1) = m a :: loadBytes m (a + 1) n := by
  unfold loadBytes
  rw [List.range_succ_eq_map]
  simp [Function.comp, Nat.add_comm, Nat.add_left_comm]

/-- Read-after-write at the memory level: loading back exactly the stored
span returns the stored bytes. -/
theorem loadBytes_storeBytes (data : List Nat) :
    ∀ (m : Nat → Nat) (addr : Nat),
      loadBytes (storeBytes m addr data) addr data.length = data := by
  induction data with
  | nil => intro m addr; rfl
  | cons b bs ih =>
    intro m addr
    show loadBytes (storeBytes (fun y => if y = addr then b else m y) (addr + 1) bs)
      addr (bs.length + 1) = b :: bs
    rw [loadBytes_succ, storeBytes_lt bs _ _ _ (Nat.lt_succ_self addr)]
    simp [ih]

/-- A range lying inside a single region holding the permission bits is
mapped with those bits at every byte. -/
theorem rangeMapped_of_region (s : NativeEngine) (r : NativeRegion)
    (addr len p : Nat) (hmem : r ∈ s.regions) (hp : r.perms &&& p = p)
    (hlo : r.begin_ ≤ addr) (hhi : addr + len ≤ r.end_ + 1) :
    s.rangeMapped addr len p = true := by
  unfold NativeEngine.rangeMapped
  rw [List.all_eq_true]
  intro i hi
  rw [List.mem_range] at hi
  unfold NativeEngine.mappedWith
  rw [List.any_eq_true]
  refine ⟨r, hmem, ?_⟩
  simp only [NativeRegion.contains, Bool.and_eq_true, decide_eq_true_eq]
  exact ⟨⟨by omega, by omega⟩, hp⟩

/-- Claim C7: for any byte sequence fitting within a mapped
readable-and-writable region, `MemWrite` succeeds and an immediate
`MemRead` of the same span returns exactly the written bytes. -/
theorem mem_read_after_write (u : NativeEngine) (r : NativeRegion)
    (addr : Nat) (data : List Nat) (hmem : r ∈ u.regions)
    (hw : r.perms &&& PROT_WRITE = PROT_WRITE)
    (hr : r.perms &&& PROT_READ = PROT_READ)
    (hlo : r.begin_ ≤ addr) (hhi : addr + data.length ≤ r.end_ + 1) :
    (MemWrite u addr data).1 = none ∧
    MemRead (MemWrite u addr data).2 addr data.length = (data, none) := by
  rcases data with _ | ⟨b, bs⟩
  · exact ⟨rfl, rfl⟩
  · set data := b :: bs with hdata
    have hlen : data.length ≠ 0 := by simp [hdata]
    have hWm : u.rangeMapped addr data.length PROT_WRITE = true :=
      rangeMapped_of_region u r addr data.length PROT_WRITE hmem hw hlo hhi
    have hwrite : MemWrite u addr data =
        (none, { u with mem := storeBytes u.mem addr data }) := by
      simp [MemWrite, hlen, uc_mem_write, hWm, errReturn, ERR_OK]
    refine ⟨by rw [hwrite], ?_⟩
    rw [hwrite]
    have hRm : NativeEngine.rangeMapped
        { u with mem := storeBytes u.mem addr data } addr data.length PROT_READ = true :=
      rangeMapped_of_region _ r addr data.length PROT_READ hmem hr hlo hhi
    simp [MemRead, MemReadInto, hlen, uc_mem_read, hRm, errReturn, ERR_OK,
      loadBytes_storeBytes]

/-- Witness for C7: writing `[1,2,3,4]` at 0x1000 into a page mapped
read-write-execute and reading 4 bytes back yields `[1,2,3,4]`. -/
theorem mem_read_after_write_witness :
    (MemWrite engine1 4096 [1, 2, 3, 4]).1 = none ∧
    MemRead (MemWrite engine1 4096 [1, 2, 3, 4]).2 4096 4 = ([1, 2, 3, 4], none) :=
  mem_read_after_write engine1 ⟨4096, 8191, 7⟩ 4096 [1, 2, 3, 4]
    (by simp [engine1, engine0]) (by decide) (by decide) (by decide) (by decide)

/-! ## Run-loop lemmas -/

/-- The modelled run result did not terminate through the
instruction-count or the wall-clock limit. -/
def noLimitStop : Option (StopReason × NativeEngine) → Prop
  | some (r, _) => r ≠ StopReason.countLimit ∧ r ≠ StopReason.timeLimit
  | none => True

/-- With count and timeout both zero, no iteration of the run loop
terminates through a limit. -/
theorem runLoop_zero_no_limit (t : Nat) :
    ∀ (fuel : Nat) (s : NativeEngine) (ex : Nat),
      noLimitStop (runLoop t 0 0 s ex fuel) := by
  intro fuel
  induction fuel with
  | zero =>
    intro s ex
    simp [runLoop, noLimitStop]
  | succ n ih =>
    intro s ex
    simp only [runLoop, uc_emu_stop]
    repeat' split
    all_goals first
      | exact ih _ _
      | simp_all [noLimitStop]

/-- Claim C4: `Start(begin, until)` is exactly `StartWithOptions` with the
zero-valued options, and, per the execution-request model, those zeros
disable the limits: a zero-count, zero-timeout run never terminates
through the instruction-count or the wall-clock limit. -/
theorem Start_is_zero_options (u : NativeEngine) (b t : Nat) :
    Start u b t = StartWithOptions u b t ⟨0, 0⟩ ∧
    noLimitStop (uc_emu_start u b t 0 0) :=
  ⟨rfl, runLoop_zero_no_limit t (startFuel b t 0 0)
    { u with pc := b, running := true, stopRequested := false } 0⟩

/-- A run over a span with no stop hooks and executable mappings completes
normally: the loop reaches the limit address with success. -/
theorem runLoop_clean (t : Nat) :
    ∀ (fuel : Nat) (s : NativeEngine) (ex : Nat),
      s.pc ≤ t → t - s.pc < fuel → s.stopRequested = false →
      (∀ a, s.pc ≤ a → a < t → s.hookStopsAt a = false) →
      (∀ a, s.pc ≤ a → a < t → s.mappedWith a PROT_EXEC = true) →
      runLoop t 0 0 s ex fuel =
        some (.untilReached, { s with pc := t, running := false }) := by
  intro fuel
  induction fuel with
  | zero =>
    intro s ex _ hf
    omega
  | succ n ih =>
    intro s ex hle hf hstop hhook hmap
    simp only [runLoop]
    by_cases h1 : s.pc = t
    · rw [if_pos h1, ← h1]
    · rw [if_neg h1]
      have hpc : s.pc < t := Nat.lt_of_le_of_ne hle h1
      have hhk : s.hookStopsAt s.pc = false := hhook s.pc (Nat.le_refl _) hpc
      have hmp : s.mappedWith s.pc PROT_EXEC = true :=
        hmap s.pc (Nat.le_refl _) hpc
      rw [hhk]
      simp only [if_false, hstop, Bool.false_eq_true, hmp, if_true,
        ne_eq, not_true_eq_false, false_and]
      exact ih { s with pc := s.pc + 1, stopRequested := false } (ex + 1) hpc
        (show t - (s.pc + 1) < n by omega) rfl
        (fun a ha1 ha2 => hhook a (Nat.le_of_succ_le ha1) ha2)
        (fun a ha1 ha2 => hmap a (Nat.le_of_succ_le ha1) ha2)

/-- Go-level consequence: a `Start` over a hook-free span whose addresses
are all mapped executable terminates with success (`nil`) at the limit
address. -/
theorem Start_clean_run (v : NativeEngine) (b2 t2 : Nat) (hle : b2 ≤ t2)
    (hhook : ∀ a, b2 ≤ a → a < t2 → v.hookStopsAt a = false)
    (hmap : ∀ a, b2 ≤ a → a < t2 → v.mappedWith a PROT_EXEC = true) :
    Start v b2 t2 =
      some (none, { v with pc := t2, running := false, stopRequested := false }) := by
  show (uc_emu_start v b2 t2 0 0).map _ = _
  unfold uc_emu_start
  rw [runLoop_clean t2 (startFuel b2 t2 0 0)
    { v with pc := b2, running := true, stopRequested := false } 0 hle
    (by simp [startFuel]) rfl hhook hmap]
  rfl

/-- Claim C8: a stop issued by a code hook during `Start` makes that
`Start` return success (`nil`), leaves the engine idle with no stop
request pending, and from the resulting state any subsequent clean `Start`
(no stop hooks on its span, span mapped executable) again returns
success. -/
theorem stop_from_hook (u : NativeEngine) (b t : Nat)
    (hne : b ≠ t) (hhook : u.hookStopsAt b = true) :
    Start u b t =
      some (none, { u with pc := b, running := false, stopRequested := false }) ∧
    (∀ b2 t2, b2 ≤ t2 →
      (∀ a, b2 ≤ a → a < t2 → u.hookStopsAt a = false) →
      (∀ a, b2 ≤ a → a < t2 → u.mappedWith a PROT_EXEC = true) →
      Start { u with pc := b, running := false, stopRequested := false } b2 t2 =
        some (none, { u with pc := t2, running := false, stopRequested := false })) := by
  constructor
  · show (uc_emu_start u b t 0 0).map _ = _
    unfold uc_emu_start
    have hfuel : startFuel b t 0 0 = (t - b) + 1 := by simp [startFuel]
    rw [hfuel]
    simp only [runLoop, hne, if_false, hhook, if_true, uc_emu_stop]
    rfl
  · intro b2 t2 hle hhooks hmapped
    exact Start_clean_run _ b2 t2 hle hhooks hmapped

/-- Witness for C8: an engine whose hook stops at address 0, started on
`[0, 16)`, returns success and is immediately startable again on the
empty span `[0, 0)`, returning success once more. -/
theorem stop_from_hook_witness :
    Start engine2 0 16 =
      some (none, { engine2 with pc := 0, running := false, stopRequested := false }) ∧
    Start { engine2 with pc := 0, running := false, stopRequested := false } 0 0 =
      some (none, { engine2 with pc := 0, running := false, stopRequested := false }) :=
  ⟨(stop_from_hook engine2 0 16 (by decide) rfl).1,
   (stop_from_hook engine2 0 16 (by decide) rfl).2 0 0 (Nat.le_refl 0)
     (fun a _ ha => absurd ha (Nat.not_lt_zero a))
     (fun a _ ha => absurd ha (Nat.not_lt_zero a))⟩

end Unicorn
